import Mathlib

/-!
Verification of the pytocy analysis-and-lowering engine against its
specification.  The engine lowers type-hinted Python classes and functions
into a typed intermediate model and renders Cython declaration (.pxd) and
implementation (.pyx) artifacts.  The repository ships the README and two
generated build artifacts (build_dir/final.pyx, build_dir/last.pxd); the
engine components themselves (TypeResolver, LocalInferencer, SafetyAnalyzer,
ModelBuilder, the two emitters) are modelled from the specification below,
while concrete data extracted verbatim from the shipped build artifacts is
embedded as explicit Lean values and checked against the claims.
-/

namespace Pytocy

/-- Severity of a diagnostic: `low` for the graceful degrades
(UnsupportedType, IncompatibleLocalAssignment), `fatalSev` for the two
conditions that abort model construction. -/
inductive Severity where
  | low
  | fatalSev
  deriving DecidableEq, Repr

/-- Diagnostic taxonomy of the error-handling design (spec section 7). -/
inductive DiagKind where
  | unsupportedType
  | incompatibleLocalAssignment
  | visibilityConflict
  | invalidBufferContainment
  deriving DecidableEq, Repr

/-- Diagnostic record: kind, severity and the symbol or location text it
refers to. -/
structure Diagnostic where
  kind : DiagKind
  severity : Severity
  symbol : String
  deriving DecidableEq, Repr

/-- Modelled from the spec: the closed `StorageKind` variant (spec section 3).
The engine source is not shipped under src/, so the data model follows the
specification's closed list.  `OwnedContainer{element, shape}` is split into
`ownedSeq` (Sequence shape) and `ownedMap` (Mapping shape keyed by a
`StorageKind`), which carries the identical information. -/
inductive StorageKind where
  | primitiveScalar (width : Nat) (signed : Bool) (isFloat : Bool)
  | ownedSeq (element : StorageKind)
  | ownedMap (key : StorageKind) (element : StorageKind)
  | optionalPointer (inner : StorageKind)
  | typedBuffer (elementTag : String) (rank : Nat)
  | opaqueHostObject
  deriving DecidableEq, Repr

/-- An owned container of either shape. -/
def StorageKind.isOwnedContainer : StorageKind → Bool
  | .ownedSeq _ => true
  | .ownedMap _ _ => true
  | _ => false

/-- A typed buffer (memoryview) kind. -/
def StorageKind.isTypedBuffer : StorageKind → Bool
  | .typedBuffer _ _ => true
  | _ => false

/-- An optional-pointer kind. -/
def StorageKind.isOptionalPtr : StorageKind → Bool
  | .optionalPointer _ => true
  | _ => false

/-- The opaque dynamic fallback kind. -/
def StorageKind.isOpaque : StorageKind → Bool
  | .opaqueHostObject => true
  | _ => false

/-- Canonical kind for the `int` scalar hint: signed 64-bit integer. -/
def int64Kind : StorageKind := .primitiveScalar 64 true false

/-- Canonical kind for the `float` scalar hint: 64-bit float. -/
def float64Kind : StorageKind := .primitiveScalar 64 true true

/-- Canonical kind for the `bool` scalar hint. -/
def boolKind : StorageKind := .primitiveScalar 1 false false

/-- Modelled from the spec: recognized scalar hint names and their canonical
kinds (README translation table: `int`, `float`, `bool` map to `long`,
`double`, `bint`). -/
def scalarKind? (s : String) : Option StorageKind :=
  if s = "int" then some int64Kind
  else if s = "float" then some float64Kind
  else if s = "bool" then some boolKind
  else none

/-- Modelled from the spec: surface type hints as the external parser hands
them to the engine (README translation table): plain names, `Optional[...]`,
`List[...]`, `Dict[...]`, and `Annotated` ndarray tensor hints with a dtype
tag and a rank. -/
inductive Hint where
  | named (s : String)
  | optional (inner : Hint)
  | listOf (element : Hint)
  | dictOf (key : Hint) (value : Hint)
  | tensor (elementTag : String) (rank : Int)
  deriving DecidableEq, Repr

/-- Declaring scope of an annotated symbol (spec section 3). -/
inductive Scope where
  | classField
  | paramScope
  | localVar
  | returnScope
  deriving DecidableEq, Repr

/-- Container-nesting bound of the resolver (spec section 4.1). -/
def nestingBound : Nat := 8

/-- Known numeric dtype tags of tensor hints (README examples use
`float64` and `int32`). -/
def knownTensorTag : String → Bool
  | "float64" => true
  | "float32" => true
  | "int64" => true
  | "int32" => true
  | _ => false

/-- Modelled from the spec: the TypeResolver algorithm (spec section 4.1),
ordered first-match rules on one hint, carrying the container-nesting depth.
Rule 1: recognized scalar names.  Rule 2: optional-of wraps the inner kind
(pointer-to-opaque permitted).  Rule 3: tensor hints with a positive rank and
a known numeric tag become typed buffers, otherwise degrade to the opaque
fallback with a low-severity UnsupportedType diagnostic.  Rule 4:
sequence/mapping hints wrap recursively resolved element kinds, degrade to
opaque past the nesting bound, and reject a typed buffer as the element kind
of an owned container with the fatal InvalidBufferContainment diagnostic.
Rule 5: anything else degrades to `opaqueHostObject` with a low-severity
UnsupportedType diagnostic. -/
def resolveAux : Nat → Hint → Except Diagnostic (StorageKind × List Diagnostic)
  | _, .named s =>
    match scalarKind? s with
    | some k => .ok (k, [])
    | none => .ok (.opaqueHostObject, [⟨.unsupportedType, .low, s⟩])
  | d, .optional h =>
    match resolveAux d h with
    | .error e => .error e
    | .ok (k, ds) => .ok (.optionalPointer k, ds)
  | _, .tensor tag rank =>
    match decide (0 < rank) && knownTensorTag tag with
    | true => .ok (.typedBuffer tag rank.toNat, [])
    | false => .ok (.opaqueHostObject, [⟨.unsupportedType, .low, tag⟩])
  | d, .listOf h =>
    if nestingBound ≤ d then
      .ok (.opaqueHostObject, [⟨.unsupportedType, .low, "nesting-bound"⟩])
    else
      match resolveAux (d + 1) h with
      | .error e => .error e
      | .ok (k, ds) =>
        if k.isTypedBuffer then
          .error ⟨.invalidBufferContainment, .fatalSev, "sequence-element"⟩
        else .ok (.ownedSeq k, ds)
  | d, .dictOf kh vh =>
    if nestingBound ≤ d then
      .ok (.opaqueHostObject, [⟨.unsupportedType, .low, "nesting-bound"⟩])
    else
      match resolveAux (d + 1) kh, resolveAux (d + 1) vh with
      | .error e, _ => .error e
      | .ok _, .error e => .error e
      | .ok (kk, ds1), .ok (vk, ds2) =>
        if vk.isTypedBuffer then
          .error ⟨.invalidBufferContainment, .fatalSev, "mapping-value"⟩
        else .ok (.ownedMap kk vk, ds1 ++ ds2)

/-- TypeResolver entry point: one raw hint plus the scope it appears in
(spec section 4.1).  The resolved kind does not depend on the scope. -/
def resolve (_sc : Scope) (h : Hint) : Except Diagnostic (StorageKind × List Diagnostic) :=
  resolveAux 0 h

/-- Modelled from the spec: rendering of a storage kind as its Cython/C++
type text, per the README translation table (`long`, `double`, `bint`,
`unique_ptr[vector[...]]`, `unique_ptr[map[...]]`, pointer for optional,
typed memoryview for buffers, plain `object` for the opaque fallback). -/
def emitCType : StorageKind → String
  | .primitiveScalar _ _ true => "double"
  | .primitiveScalar 1 _ false => "bint"
  | .primitiveScalar _ _ false => "long"
  | .ownedSeq e => "unique_ptr[vector[" ++ emitCType e ++ "]]"
  | .ownedMap k e => "unique_ptr[map[" ++ emitCType k ++ ", " ++ emitCType e ++ "]]"
  | .optionalPointer i => emitCType i ++ "*"
  | .typedBuffer tag rank =>
    "np." ++ tag ++ "_t[" ++ String.intercalate ", " (List.replicate (rank - 1) ":" ++ ["::1"]) ++ "]"
  | .opaqueHostObject => "object"

/-- Modelled from the spec: the expression form of function bodies handed
to the SafetyAnalyzer (spec sections 4.3 and 6): literals, symbol
references, binary operations, and calls to named functions. -/
inductive Expr where
  | lit (n : Int)
  | var (name : String)
  | binop (a : Expr) (b : Expr)
  | call (callee : String) (arg : Expr)
  deriving DecidableEq, Repr

/-- Modelled from the spec: the statement form of function bodies
(spec section 4.3): assignments, expression statements, sequencing,
conditionals, loops, exception handling (`tryCatch` and `raiseErr`),
host-visible output (`emitOutput`, the translation of print), and return. -/
inductive Stmt where
  | skip
  | assign (lhs : String) (rhs : Expr)
  | exprStmt (e : Expr)
  | seq (a : Stmt) (b : Stmt)
  | ifStmt (cond : Expr) (thenBranch : Stmt) (elseBranch : Stmt)
  | whileStmt (cond : Expr) (body : Stmt)
  | tryCatch (body : Stmt) (handler : Stmt)
  | raiseErr (e : Expr)
  | emitOutput (e : Expr)
  | ret (e : Expr)
  deriving DecidableEq, Repr

/-- Symbol table of a function: resolved storage kinds of its parameters,
locals and enclosing class fields. -/
abbrev Symtab := List (String × StorageKind)

/-- Kind lookup in a symbol table; unknown names conservatively count as
opaque host objects. -/
def lookupKind (st : Symtab) (x : String) : StorageKind :=
  match st with
  | [] => .opaqueHostObject
  | (n, k) :: rest => if n = x then k else lookupKind rest x

/-- An expression operates on a symbol whose kind is `opaqueHostObject`. -/
def exprOpaqueOp (st : Symtab) : Expr → Bool
  | .lit _ => false
  | .var x => (lookupKind st x).isOpaque
  | .binop a b => exprOpaqueOp st a || exprOpaqueOp st b
  | .call _ arg => exprOpaqueOp st arg

/-- A statement (anywhere in its nested traversal) operates on a symbol
whose kind is `opaqueHostObject`. -/
def stmtOpaqueOp (st : Symtab) : Stmt → Bool
  | .skip => false
  | .assign lhs rhs => (lookupKind st lhs).isOpaque || exprOpaqueOp st rhs
  | .exprStmt e => exprOpaqueOp st e
  | .seq a b => stmtOpaqueOp st a || stmtOpaqueOp st b
  | .ifStmt c a b => exprOpaqueOp st c || stmtOpaqueOp st a || stmtOpaqueOp st b
  | .whileStmt c b => exprOpaqueOp st c || stmtOpaqueOp st b
  | .tryCatch b h => stmtOpaqueOp st b || stmtOpaqueOp st h
  | .raiseErr e => exprOpaqueOp st e
  | .emitOutput e => exprOpaqueOp st e
  | .ret e => exprOpaqueOp st e

/-- A statement raises or catches an error condition anywhere in its
nested traversal. -/
def stmtRaisesOrCatches : Stmt → Bool
  | .skip => false
  | .assign _ _ => false
  | .exprStmt _ => false
  | .seq a b => stmtRaisesOrCatches a || stmtRaisesOrCatches b
  | .ifStmt _ a b => stmtRaisesOrCatches a || stmtRaisesOrCatches b
  | .whileStmt _ b => stmtRaisesOrCatches b
  | .tryCatch _ _ => true
  | .raiseErr _ => true
  | .emitOutput _ => false
  | .ret _ => false

/-- A statement produces host-visible output anywhere in its nested
traversal. -/
def stmtHostOutput : Stmt → Bool
  | .skip => false
  | .assign _ _ => false
  | .exprStmt _ => false
  | .seq a b => stmtHostOutput a || stmtHostOutput b
  | .ifStmt _ a b => stmtHostOutput a || stmtHostOutput b
  | .whileStmt _ b => stmtHostOutput b
  | .tryCatch b h => stmtHostOutput b || stmtHostOutput h
  | .raiseErr _ => false
  | .emitOutput _ => true
  | .ret _ => false

/-- Names of the functions called anywhere in an expression. -/
def exprCalls : Expr → List String
  | .lit _ => []
  | .var _ => []
  | .binop a b => exprCalls a ++ exprCalls b
  | .call f arg => f :: exprCalls arg

/-- Names of the functions called anywhere in a statement's traversal. -/
def stmtCalls : Stmt → List String
  | .skip => []
  | .assign _ e => exprCalls e
  | .exprStmt e => exprCalls e
  | .seq a b => stmtCalls a ++ stmtCalls b
  | .ifStmt c a b => exprCalls c ++ stmtCalls a ++ stmtCalls b
  | .whileStmt c b => exprCalls c ++ stmtCalls b
  | .tryCatch b h => stmtCalls b ++ stmtCalls h
  | .raiseErr e => exprCalls e
  | .emitOutput e => exprCalls e
  | .ret e => exprCalls e

/-- Lock-freedom verdict of a function (spec section 3); the
unknown-defaults case is folded into `requiresLock` as the spec requires. -/
inductive Verdict where
  | lockFree
  | requiresLock
  deriving DecidableEq, Repr

/-- Verdict environment: verdicts of the functions analyzed so far, in
declaration order. -/
abbrev VerdictEnv := List (String × Verdict)

/-- Verdict lookup by function name (first match). -/
def vlookup : VerdictEnv → String → Option Verdict
  | [], _ => none
  | (n, v) :: rest, f => if n = f then some v else vlookup rest f

/-- The analysis view of one function: its name, its resolved symbol table
and its body. -/
structure FuncUnit where
  name : String
  symtab : Symtab
  body : Stmt
  deriving DecidableEq, Repr

/-- Direct hazards of a body: an operation on an opaque symbol, an error
raised or caught, or host-visible output (spec section 4.3). -/
def bodyHazard (st : Symtab) (s : Stmt) : Bool :=
  stmtOpaqueOp st s || stmtRaisesOrCatches s || stmtHostOutput s

/-- Every call in the body targets a function already known `lockFree`;
calls to unknown functions conservatively fail this check. -/
def callsResolved (env : VerdictEnv) (s : Stmt) : Bool :=
  (stmtCalls s).all fun g => decide (vlookup env g = some Verdict.lockFree)

/-- Modelled from the spec: the SafetyAnalyzer verdict for one function
(spec section 4.3): `lockFree` exactly when the body has no direct hazard
and every called function already has verdict `lockFree`; any uncertain
construct forces `requiresLock`. -/
def analyzeFn (env : VerdictEnv) (fn : FuncUnit) : Verdict :=
  if !bodyHazard fn.symtab fn.body && callsResolved env fn.body then
    .lockFree
  else
    .requiresLock

/-- Analyze a list of functions in declaration order, growing the verdict
environment. -/
def analyzeList (env : VerdictEnv) : List FuncUnit → VerdictEnv
  | [] => env
  | fn :: rest => analyzeList (env ++ [(fn.name, analyzeFn env fn)]) rest

/-- Analyze a whole input unit, starting from the empty verdict
environment. -/
def analyzeUnit (u : List FuncUnit) : VerdictEnv :=
  analyzeList [] u

/-- The soundness property the specification claims of `LockFree`
verdicts: the function's own body has no operation on an opaque-kind
symbol, raises or catches no error, produces no host-visible output, and
every function it calls is itself transitively hazard-free within the
unit. -/
inductive NoHazard (u : List FuncUnit) : String → Prop where
  | intro (fn : FuncUnit)
      (hmem : fn ∈ u)
      (hsymbols : stmtOpaqueOp fn.symtab fn.body = false)
      (hraise : stmtRaisesOrCatches fn.body = false)
      (houtput : stmtHostOutput fn.body = false)
      (hcalls : ∀ g ∈ stmtCalls fn.body, NoHazard u g) :
      NoHazard u fn.name

/-- Explicit visibility decorations: `@cdef` and `@def_` (README custom
decorators). -/
inductive Decoration where
  | cdefDecorator
  | defDecorator
  deriving DecidableEq, Repr

/-- Visibility mode of a function signature (spec section 3). -/
inductive Visibility where
  | internalOnly
  | dualVisible
  | hostOnly
  deriving DecidableEq, Repr

/-- Modelled from the spec: an explicit decoration takes precedence over
the default `dualVisible` (README translation table: `@cdef` renders a
`cdef` function, `@def_` a plain `def` function, no decorator a `cpdef`
function). -/
def visibilityOf : Option Decoration → Visibility
  | some .cdefDecorator => .internalOnly
  | some .defDecorator => .hostOnly
  | none => .dualVisible

/-- A raw (unresolved) parameter of the parsed input unit. -/
structure RawParam where
  name : String
  hint : Hint
  deriving DecidableEq, Repr

/-- A raw function definition of the parsed input unit: name, optional
visibility decoration, ordered hinted parameters, return hint, body. -/
structure RawFunc where
  name : String
  decoration : Option Decoration
  params : List RawParam
  retHint : Hint
  body : Stmt
  deriving DecidableEq, Repr

/-- A raw annotated class field of the parsed input unit. -/
structure RawField where
  name : String
  hint : Hint
  deriving DecidableEq, Repr

/-- A raw class definition: ordered annotated fields and ordered methods. -/
structure RawClass where
  name : String
  fields : List RawField
  methods : List RawFunc
  deriving DecidableEq, Repr

/-- A parsed input unit: ordered classes and free functions. -/
structure RawUnit where
  classes : List RawClass
  freeFuncs : List RawFunc
  deriving DecidableEq, Repr

/-- An annotated symbol of the built model: name, raw hint, resolved kind
and declaring scope (spec section 3). -/
structure AnnotatedSymbol where
  name : String
  rawHint : Hint
  kind : StorageKind
  scope : Scope
  deriving DecidableEq, Repr

/-- A built function signature (spec section 3). -/
structure FunctionSignature where
  name : String
  owner : Option String
  params : List AnnotatedSymbol
  retKind : StorageKind
  visibility : Visibility
  verdict : Verdict
  deriving DecidableEq, Repr

/-- A built class model (spec section 3).  `allocHooks` lists, in field
order, the owned-container fields the synthesized construction hook
(`__cinit__`) allocates; `nullInitFields` lists the optional-pointer
fields that hold the null sentinel at allocation. -/
structure ClassModel where
  name : String
  fields : List AnnotatedSymbol
  methods : List FunctionSignature
  allocHooks : List String
  nullInitFields : List String
  hasOwnedContainerFields : Bool
  deriving DecidableEq, Repr

/-- The built model of one input unit plus its accumulated non-fatal
diagnostics. -/
structure Model where
  classes : List ClassModel
  freeFuncs : List FunctionSignature
  diags : List Diagnostic
  deriving DecidableEq, Repr

/-- Two function declarations in the same scope conflict when they share a
name and carry incompatible explicit visibility decorations
(spec section 4.4, fatal condition a). -/
def conflictPair (f g : RawFunc) : Bool :=
  f.name == g.name &&
    match f.decoration, g.decoration with
    | some a, some b => !(a == b)
    | _, _ => false

/-- Some pair of functions of one scope has a visibility conflict. -/
def hasConflict : List RawFunc → Bool
  | [] => false
  | f :: rest => rest.any (conflictPair f) || hasConflict rest

/-- Resolve the ordered parameters of a function, accumulating their
diagnostics; a fatal resolution aborts. -/
def buildParams : List RawParam → Except Diagnostic (List AnnotatedSymbol × List Diagnostic)
  | [] => .ok ([], [])
  | p :: rest =>
    match resolveAux 0 p.hint with
    | .error e => .error e
    | .ok (k, ds) =>
      match buildParams rest with
      | .error e => .error e
      | .ok (syms, ds2) => .ok (⟨p.name, p.hint, k, .paramScope⟩ :: syms, ds ++ ds2)

/-- Resolve the ordered fields of a class, accumulating their diagnostics;
a fatal resolution aborts. -/
def buildFields : List RawField → Except Diagnostic (List AnnotatedSymbol × List Diagnostic)
  | [] => .ok ([], [])
  | f :: rest =>
    match resolveAux 0 f.hint with
    | .error e => .error e
    | .ok (k, ds) =>
      match buildFields rest with
      | .error e => .error e
      | .ok (syms, ds2) => .ok (⟨f.name, f.hint, k, .classField⟩ :: syms, ds ++ ds2)

/-- Modelled from the spec: build one function signature (spec
section 4.4): resolve parameters and return hint, fix the visibility mode
once from the decoration, and run the SafetyAnalyzer over the body with
the resolved symbol table. -/
def buildFunc (env : VerdictEnv) (owner : Option String) (fieldSyms : Symtab) (f : RawFunc) :
    Except Diagnostic (FunctionSignature × List Diagnostic) :=
  match buildParams f.params with
  | .error e => .error e
  | .ok (psyms, ds1) =>
    match resolveAux 0 f.retHint with
    | .error e => .error e
    | .ok (rk, ds2) =>
      let st : Symtab := psyms.map (fun s => (s.name, s.kind)) ++ fieldSyms
      .ok (⟨f.name, owner, psyms, rk, visibilityOf f.decoration,
            analyzeFn env ⟨f.name, st, f.body⟩⟩, ds1 ++ ds2)

/-- Build a list of function signatures in declaration order, threading
the verdict environment. -/
def buildFuncs (env : VerdictEnv) (owner : Option String) (fieldSyms : Symtab) :
    List RawFunc → Except Diagnostic (List FunctionSignature × List Diagnostic × VerdictEnv)
  | [] => .ok ([], [], env)
  | f :: rest =>
    match buildFunc env owner fieldSyms f with
    | .error e => .error e
    | .ok (sig, ds) =>
      match buildFuncs (env ++ [(f.name, sig.verdict)]) owner fieldSyms rest with
      | .error e => .error e
      | .ok (sigs, ds2, env2) => .ok (sig :: sigs, ds ++ ds2, env2)

/-- Modelled from the spec: build one class model (spec sections 3
and 4.4): a visibility conflict among the methods is fatal; fields and
methods are resolved in declaration order; every owned-container field
gets an allocation hook, every optional-pointer field a null-sentinel
initialization. -/
def buildClass (env : VerdictEnv) (c : RawClass) :
    Except Diagnostic (ClassModel × List Diagnostic × VerdictEnv) :=
  if hasConflict c.methods then
    .error ⟨.visibilityConflict, .fatalSev, c.name⟩
  else
    match buildFields c.fields with
    | .error e => .error e
    | .ok (fsyms, ds1) =>
      match buildFuncs env (some c.name) (fsyms.map fun s => (s.name, s.kind)) c.methods with
      | .error e => .error e
      | .ok (sigs, ds2, env2) =>
        let owned := fsyms.filter fun s => s.kind.isOwnedContainer
        let optPtr := fsyms.filter fun s => s.kind.isOptionalPtr
        .ok (⟨c.name, fsyms, sigs, owned.map (fun s => s.name),
              optPtr.map (fun s => s.name), !owned.isEmpty⟩, ds1 ++ ds2, env2)

/-- Build the classes of a unit in declaration order, threading the
verdict environment. -/
def buildClasses (env : VerdictEnv) :
    List RawClass → Except Diagnostic (List ClassModel × List Diagnostic × VerdictEnv)
  | [] => .ok ([], [], env)
  | c :: rest =>
    match buildClass env c with
    | .error e => .error e
    | .ok (cm, ds, env1) =>
      match buildClasses env1 rest with
      | .error e => .error e
      | .ok (cms, ds2, env2) => .ok (cm :: cms, ds ++ ds2, env2)

/-- Modelled from the spec: the ModelBuilder (spec section 4.4): drives
resolution and analysis over every class and free function in declaration
order, accumulating non-fatal diagnostics; a visibility conflict or an
invalid buffer containment aborts construction of the whole unit,
returning only the fatal diagnostic and no model. -/
def buildModel (u : RawUnit) : Except Diagnostic Model :=
  if hasConflict u.freeFuncs then
    .error ⟨.visibilityConflict, .fatalSev, "free-functions"⟩
  else
    match buildClasses [] u.classes with
    | .error e => .error e
    | .ok (cms, ds1, env1) =>
      match buildFuncs env1 none [] u.freeFuncs with
      | .error e => .error e
      | .ok (sigs, ds2, _) => .ok ⟨cms, sigs, ds1 ++ ds2⟩

/-- Success test for `Except` results. -/
def exceptOk : Except Diagnostic α → Bool
  | .ok _ => true
  | .error _ => false

/-- A hint is a structurally valid tensor hint: positive rank and a known
numeric element tag.  These are exactly the hints that resolve to
`typedBuffer`. -/
def isValidTensorHint : Hint → Bool
  | .tensor tag rank => decide (0 < rank) && knownTensorTag tag
  | _ => false

/-- Independent scan for the fatal buffer-containment condition: somewhere
within the nesting bound, a sequence element or mapping value is a valid
tensor hint (spec section 3 invariant). -/
def hintBufferViolation : Nat → Hint → Bool
  | _, .named _ => false
  | d, .optional h => hintBufferViolation d h
  | _, .tensor _ _ => false
  | d, .listOf h =>
    if nestingBound ≤ d then false
    else isValidTensorHint h || hintBufferViolation (d + 1) h
  | d, .dictOf kh vh =>
    if nestingBound ≤ d then false
    else isValidTensorHint vh || hintBufferViolation (d + 1) kh || hintBufferViolation (d + 1) vh

/-- All hints of one function (parameters and return) are free of the
buffer-containment violation, or not. -/
def funcHintsViolation (f : RawFunc) : Bool :=
  f.params.any (fun p => hintBufferViolation 0 p.hint) || hintBufferViolation 0 f.retHint

/-- A class carries one of the two fatal conditions: a visibility conflict
among its methods, or a buffer-containment violation in a field or method
hint. -/
def classFatal (c : RawClass) : Bool :=
  hasConflict c.methods ||
    c.fields.any (fun fl => hintBufferViolation 0 fl.hint) ||
    c.methods.any funcHintsViolation

/-- The whole unit carries one of the two fatal conditions
(spec section 4.4). -/
def unitHasFatal (u : RawUnit) : Bool :=
  hasConflict u.freeFuncs || u.classes.any classFatal || u.freeFuncs.any funcHintsViolation

/-- Visibility keyword the emitters render for a signature. -/
def visKeyword : Visibility → String
  | .internalOnly => "cdef"
  | .dualVisible => "cpdef"
  | .hostOnly => "def"

/-- Rendered parameter text. -/
def paramText (p : AnnotatedSymbol) : String :=
  emitCType p.kind ++ " " ++ p.name

/-- Rendered signature line shared by the two emitters: visibility
keyword, return type, name, parameter list, and the `nogil` marker for
lock-free verdicts. -/
def sigLine (s : FunctionSignature) : String :=
  visKeyword s.visibility ++ " " ++ emitCType s.retKind ++ " " ++ s.name ++ "(" ++
    String.intercalate ", " (s.params.map paramText) ++ ")" ++
    (if s.verdict == Verdict.lockFree then " nogil" else "")

/-- Modelled from the spec: the DeclarationEmitter lines for one class of
the built model: the class header, every field in model order, and the
non-host-only method signatures. -/
def declClassLines (cm : ClassModel) : List String :=
  ("cdef class " ++ cm.name ++ ":") ::
    (cm.fields.map fun f => "    cdef readonly " ++ emitCType f.kind ++ " " ++ f.name) ++
    (cm.methods.filter fun s => !(s.visibility == Visibility.hostOnly)).map
      (fun s => "    " ++ sigLine s)

/-- Modelled from the spec: the BodyEmitter lines for one class of the
built model: the class header, every field in model order, the synthesized
construction hook allocating each owned-container field, and every method. -/
def bodyClassLines (cm : ClassModel) : List String :=
  ("cdef class " ++ cm.name ++ ":") ::
    (cm.fields.map fun f => "    cdef " ++ emitCType f.kind ++ " " ++ f.name) ++
    ("    def __cinit__(self):" ::
      cm.allocHooks.map fun n => "        self." ++ n ++ ".reset(new ...)") ++
    cm.methods.map fun s => "    " ++ sigLine s ++ ":"

/-- The declaration artifact rendered from a built model. -/
def declEmit (m : Model) : List String :=
  (m.classes.map declClassLines).flatten ++
    (m.freeFuncs.filter fun s => !(s.visibility == Visibility.hostOnly)).map sigLine

/-- The fixed five-directive header every rendered implementation artifact
begins with (build_dir/final.pyx lines 1-5 and the generated .pyx embedded
in build_dir/last.pxd, lines 18-22 of that file). -/
def directiveHeader : List String :=
  ["# cython: language_level=3",
   "# cython: boundscheck=False",
   "# cython: wraparound=False",
   "# cython: cdivision=True",
   "# cython: nonecheck=False"]

/-- The implementation artifact rendered from a built model: the directive
header, then every class, then every free function. -/
def bodyEmit (m : Model) : List String :=
  directiveHeader ++ (m.classes.map bodyClassLines).flatten ++
    m.freeFuncs.map fun s => sigLine s ++ ":"

/-- The full pipeline on one unit: either both artifacts render from the
complete model, or the fatal diagnostic is returned and neither artifact
is produced. -/
def emitUnit (u : RawUnit) : Except Diagnostic (List String × List String) :=
  match buildModel u with
  | .error e => .error e
  | .ok m => .ok (declEmit m, bodyEmit m)

/-- Field values the construction semantics distinguishes. -/
inductive FieldValue where
  | nullSentinel
  | zeroScalar
  | freshAllocation
  | emptyView
  | hostObject
  deriving DecidableEq, Repr

/-- Modelled from the spec: the value every field holds at object
allocation, before any constructor statement executes.  C-level fields of
a generated extension class are zero-initialized when the object is
allocated, so an optional-pointer field holds the null sentinel, a scalar
holds zero, a memoryview slot is the empty view, and a dynamic field holds
the host's none object. -/
def zeroInitValue : StorageKind → FieldValue
  | .optionalPointer _ => .nullSentinel
  | .primitiveScalar _ _ _ => .zeroScalar
  | .ownedSeq _ => .freshAllocation
  | .ownedMap _ _ => .freshAllocation
  | .typedBuffer _ _ => .emptyView
  | .opaqueHostObject => .hostObject

/-- The field state of a freshly allocated instance of a built class,
before any constructor statement executes. -/
def allocationState (cm : ClassModel) : List (String × FieldValue) :=
  cm.fields.map fun f => (f.name, zeroInitValue f.kind)

/-- A statement of a rendered constructor body, classified by whether it
assigns the null sentinel or any other initialization value to a field. -/
inductive CtorStmt where
  | setNullSentinel (fieldName : String)
  | setOther (fieldName : String)
  deriving DecidableEq, Repr

/-- The statement assigns the null sentinel. -/
def isNullSet : CtorStmt → Bool
  | .setNullSentinel _ => true
  | .setOther _ => false

/-- Every null-sentinel assignment of the constructor body precedes every
other initialization statement, i.e. the null-sentinel assignments form a
prefix of the body. -/
def nullSentinelFirst (body : List CtorStmt) : Bool :=
  (body.dropWhile isNullSet).all fun s => !isNullSet s

/-- Constructor body of `DataProcessor.__init__` in the generated
implementation artifact (build_dir/last.pxd, lines 45-49): the matrix and
the counter are initialized first, and the null-sentinel assignment
`self.last_error_code = NULL` is the last statement. -/
def dataProcessorCtorBody : List CtorStmt :=
  [.setOther "result_matrix", .setOther "processed_count", .setNullSentinel "last_error_code"]

/-- Field declarations of `cdef class DataProcessor` in the declaration
artifact build_dir/last.pxd, lines 9-11, as (visibility marker, rendered
type, name) triples, in artifact order. -/
def dataProcessorDeclFields : List (String × String × String) :=
  [("readonly", "np.float64_t[:, ::1]", "result_matrix"),
   ("readonly", "long", "processed_count"),
   ("readonly", "long*", "last_error_code")]

/-- Field declarations of `cdef class DataProcessor` in the generated
implementation artifact embedded in build_dir/last.pxd, lines 37-40, as
(visibility marker, rendered type, name) triples, in artifact order. -/
def dataProcessorImplFields : List (String × String × String) :=
  [("", "unique_ptr[map[long, unique_ptr[vector[double]]]]", "event_log"),
   ("", "np.float64_t[::1, ::1]", "result_matrix"),
   ("", "long", "processed_count"),
   ("", "long*", "last_error_code")]

/-- Rendered type recorded for a named field in a field-declaration
table. -/
def fieldTypeIn (fs : List (String × String × String)) (n : String) : Option String :=
  (fs.find? fun f => f.2.2 == n).map fun f => f.2.1

/-- Method names of `cdef class DataProcessor` in the generated
implementation artifact embedded in build_dir/last.pxd (lines 42-75), in
artifact order.  The class has a `__cinit__` construction hook but no
`__dealloc__` destructor hook. -/
def dataProcessorImplMethods : List String :=
  ["__cinit__", "__init__", "_is_valid_event", "get_status_message",
   "log_event", "process_data_stream"]

/-- Field declarations of `cdef class Processor` in the declaration
artifact embedded at the end of build_dir/final.pyx (lines 121-124), as
(visibility marker, rendered type, name) triples. -/
def processorDeclFields : List (String × String × String) :=
  [("", "map[string, vector[long]*]*", "event_log"),
   ("", "object", "config"),
   ("public", "double[:, ::1]", "status_codes")]

/-- Field declarations of `cdef class Processor` in the implementation
artifact build_dir/final.pyx (lines 45-47), as (visibility marker,
rendered type, name) triples. -/
def processorImplFields : List (String × String × String) :=
  [("", "map[string, vector[long]*]*", "event_log"),
   ("", "object", "config"),
   ("", "double[:, ::1]", "status_codes")]

/-- Field assignments executed during construction of `cdef class
Processor` in build_dir/final.pyx, in execution order: `__cinit__`
(line 50) assigns `new map[string, vector[long]*]()` to `event_log`, then
`__init__` (lines 55-59) assigns `\x7b\x7d` to `event_log` again, the
constructor argument to `config`, and a fresh array to `status_codes`. -/
def processorConstructionAssigns : List (String × String) :=
  [("event_log", "new map[string, vector[long]*]()"),
   ("event_log", "\x7b\x7d"),
   ("config", "config_obj"),
   ("status_codes", "np.array([0, 0, 0], dtype=np.int32)")]

/-- Number of assignments a named field receives during construction of
`Processor` in build_dir/final.pyx. -/
def constructionAssignCount (fld : String) : Nat :=
  (processorConstructionAssigns.filter fun p => p.1 == fld).length

/-- The five compiler directives opening the implementation artifact
build_dir/final.pyx, lines 1-5, verbatim. -/
def finalPyxHeader : List String :=
  ["# cython: language_level=3",
   "# cython: boundscheck=False",
   "# cython: wraparound=False",
   "# cython: cdivision=True",
   "# cython: nonecheck=False"]

/-- The five compiler directives opening the generated implementation
artifact embedded in build_dir/last.pxd, lines 18-22, verbatim. -/
def lastGeneratedPyxHeader : List String :=
  ["# cython: language_level=3",
   "# cython: boundscheck=False",
   "# cython: wraparound=False",
   "# cython: cdivision=True",
   "# cython: nonecheck=False"]

/-- The example hint of the event-log field: mapping from integer keys to
sequence-of-float values (`Dict[int, List[float]]` in the README input). -/
def eventLogHint : Hint := .dictOf (.named "int") (.listOf (.named "float"))

/-- A one-class unit whose only field carries the event-log hint. -/
def eventLogRawUnit : RawUnit :=
  ⟨[⟨"DataProcessor", [⟨"event_log", eventLogHint⟩], []⟩], []⟩

/-- The built model of a unit, when construction succeeds. -/
def modelOf (u : RawUnit) : Option Model :=
  match buildModel u with
  | .ok m => some m
  | .error _ => none

/-- A concrete function doing only scalar arithmetic on its parameters. -/
def addFn : FuncUnit :=
  ⟨"add", [("a", int64Kind), ("b", int64Kind)], .ret (.binop (.var "a") (.var "b"))⟩

/-- A concrete function calling `add` on a scalar parameter. -/
def twiceFn : FuncUnit :=
  ⟨"twice", [("x", int64Kind)], .ret (.call "add" (.binop (.var "x") (.var "x")))⟩

/-- A concrete two-function unit for exercising the safety analysis. -/
def demoFuncList : List FuncUnit := [addFn, twiceFn]

/-- A concrete free function carrying the `@cdef` decoration. -/
def demoCdefFunc : RawFunc := ⟨"f_internal", some .cdefDecorator, [], .named "int", .skip⟩

/-- A concrete free function carrying the `@def_` decoration. -/
def demoDefFunc : RawFunc := ⟨"f_host", some .defDecorator, [], .named "int", .skip⟩

/-- A concrete free function with no decoration. -/
def demoPlainFunc : RawFunc := ⟨"f_dual", none, [], .named "int", .skip⟩

/-- A concrete unit with one function per decoration case. -/
def demoVisUnit : RawUnit := ⟨[], [demoCdefFunc, demoDefFunc, demoPlainFunc]⟩

/-- The empty model. -/
def emptyModel : Model := ⟨[], [], []⟩

/-- The built model of the decoration demo unit. -/
def demoVisModel : Model := (modelOf demoVisUnit).getD emptyModel

/-- Two free functions sharing one name with incompatible explicit
visibility decorations. -/
def conflictFunc1 : RawFunc := ⟨"dup", some .cdefDecorator, [], .named "int", .skip⟩

/-- The conflicting twin of `conflictFunc1`. -/
def conflictFunc2 : RawFunc := ⟨"dup", some .defDecorator, [], .named "int", .skip⟩

/-- A concrete unit carrying a visibility conflict in its free-function
scope. -/
def conflictUnit : RawUnit := ⟨[], [conflictFunc1, conflictFunc2]⟩

/-- A concrete optional-pointer field symbol, as resolved from the hint
`Optional[int]`. -/
def demoOptField : AnnotatedSymbol :=
  ⟨"last_error_code", .optional (.named "int"), .optionalPointer int64Kind, .classField⟩

/-- A concrete built class with one optional-pointer field. -/
def demoOptClass : ClassModel :=
  ⟨"DataProcessor", [demoOptField], [], [], ["last_error_code"], false⟩

/-- A one-class unit whose only field carries an arbitrary named hint. -/
def unitWithFieldHint (s : String) : RawUnit :=
  ⟨[⟨"Holder", [⟨"x", .named s⟩], []⟩], []⟩

/-! Helper lemmas about the verdict environment and the analyzer. -/

theorem vlookup_append (env : VerdictEnv) (n : String) (v : Verdict) (f : String) :
    vlookup (env ++ [(n, v)]) f =
      match vlookup env f with
      | some w => some w
      | none => if n = f then some v else none := by
  induction env with
  | nil => rfl
  | cons p rest ih =>
    obtain ⟨pn, pv⟩ := p
    by_cases h : pn = f
    · simp [vlookup, h]
    · simp [vlookup, h, ih]

theorem analyzeFn_lockFree (env : VerdictEnv) (fn : FuncUnit)
    (h : analyzeFn env fn = .lockFree) :
    stmtOpaqueOp fn.symtab fn.body = false ∧
    stmtRaisesOrCatches fn.body = false ∧
    stmtHostOutput fn.body = false ∧
    ∀ g ∈ stmtCalls fn.body, vlookup env g = some Verdict.lockFree := by
  unfold analyzeFn at h
  split at h
  case isTrue hc =>
    rw [Bool.and_eq_true] at hc
    obtain ⟨h1, h2⟩ := hc
    have hb : bodyHazard fn.symtab fn.body = false := by
      cases hh : bodyHazard fn.symtab fn.body
      · rfl
      · rw [hh] at h1; cases h1
    simp only [bodyHazard, Bool.or_eq_false_iff] at hb
    obtain ⟨⟨hb1, hb2⟩, hb3⟩ := hb
    refine ⟨hb1, hb2, hb3, ?_⟩
    intro g hg
    have := List.all_eq_true.mp h2 g hg
    exact of_decide_eq_true this
  case isFalse => cases h

theorem analyzeList_sound (u0 : List FuncUnit) (rest : List FuncUnit) :
    ∀ env : VerdictEnv,
      (∀ fn ∈ rest, fn ∈ u0) →
      (∀ f, vlookup env f = some Verdict.lockFree → NoHazard u0 f) →
      ∀ f, vlookup (analyzeList env rest) f = some Verdict.lockFree → NoHazard u0 f := by
  induction rest with
  | nil =>
    intro env _ hinv f hf
    exact hinv f hf
  | cons fn rest ih =>
    intro env hmem hinv f hf
    rw [analyzeList] at hf
    refine ih (env ++ [(fn.name, analyzeFn env fn)])
      (fun g hg => hmem g (List.mem_cons_of_mem _ hg)) ?_ f hf
    intro f2 hf2
    rw [vlookup_append] at hf2
    cases hv : vlookup env f2 with
    | some w =>
      rw [hv] at hf2
      simp only [] at hf2
      exact hinv f2 (by rw [hv]; exact hf2)
    | none =>
      rw [hv] at hf2
      simp only [] at hf2
      by_cases hn : fn.name = f2
      · rw [if_pos hn] at hf2
        have hfv : analyzeFn env fn = .lockFree := Option.some.inj hf2
        obtain ⟨h1, h2, h3, h4⟩ := analyzeFn_lockFree env fn hfv
        rw [← hn]
        exact NoHazard.intro fn (hmem fn (List.mem_cons_self _ _)) h1 h2 h3
          (fun g hg => hinv g (h4 g hg))
      · rw [if_neg hn] at hf2
        cases hf2

/-- C1.  Soundness of the SafetyAnalyzer: every function of a unit whose
verdict after the unit-wide analysis is `lockFree` satisfies `NoHazard`:
no statement or expression of its transitive body (including the bodies of
the `lockFree` functions it calls) operates on a symbol of kind
`opaqueHostObject`, raises or catches an error condition, or produces
host-visible output; any such construct anywhere in the traversal forces
`requiresLock`. -/
theorem analyzeUnit_lockFree_sound (u : List FuncUnit) (f : String)
    (h : vlookup (analyzeUnit u) f = some Verdict.lockFree) : NoHazard u f := by
  refine analyzeList_sound u u [] (fun fn hf => hf) ?_ f h
  intro f2 hf2
  cases hf2

/-- Witness for C1: in the concrete two-function unit, `twice` is judged
`lockFree` and the soundness theorem yields its transitive hazard
freedom. -/
theorem analyzeUnit_lockFree_sound_demo : NoHazard demoFuncList "twice" :=
  analyzeUnit_lockFree_sound demoFuncList "twice" (by decide)

/-! Helper lemmas relating the resolver's fatal failures to the
independent buffer-containment scan. -/

theorem scalarKind_not_buffer (s : String) (k : StorageKind)
    (hs : scalarKind? s = some k) : k.isTypedBuffer = false := by
  unfold scalarKind? at hs
  split_ifs at hs <;> first
    | (injection hs with h; rw [← h]; rfl)
    | cases hs

theorem validTensor_resolves (h : Hint) (d : Nat)
    (hv : isValidTensorHint h = true) :
    ∃ tag rank, resolveAux d h = .ok (.typedBuffer tag rank, []) := by
  cases h with
  | named s => simp [isValidTensorHint] at hv
  | optional h1 => simp [isValidTensorHint] at hv
  | listOf h1 => simp [isValidTensorHint] at hv
  | dictOf kh vh => simp [isValidTensorHint] at hv
  | tensor tag rank =>
    refine ⟨tag, rank.toNat, ?_⟩
    unfold resolveAux
    rw [show (decide (0 < rank) && knownTensorTag tag) = true from hv]

theorem resolveAux_buffer_inv (h : Hint) (d : Nat) (tag : String) (rank : Nat)
    (ds : List Diagnostic)
    (hr : resolveAux d h = .ok (.typedBuffer tag rank, ds)) :
    isValidTensorHint h = true := by
  cases h with
  | named s =>
    unfold resolveAux at hr
    cases hs : scalarKind? s with
    | none => rw [hs] at hr; simp at hr
    | some k =>
      rw [hs] at hr
      simp only [Except.ok.injEq, Prod.mk.injEq] at hr
      obtain ⟨hk, -⟩ := hr
      have hnb := scalarKind_not_buffer s k hs
      rw [hk] at hnb
      simp [StorageKind.isTypedBuffer] at hnb
  | optional h1 =>
    unfold resolveAux at hr
    cases hr1 : resolveAux d h1 with
    | error e => rw [hr1] at hr; cases hr
    | ok p =>
      obtain ⟨k, ds1⟩ := p
      rw [hr1] at hr
      simp at hr
  | tensor tg rk =>
    unfold resolveAux at hr
    cases hc : (decide (0 < rk) && knownTensorTag tg) with
    | true => simp [isValidTensorHint, hc]
    | false => rw [hc] at hr; simp at hr
  | listOf h1 =>
    unfold resolveAux at hr
    by_cases hd : nestingBound ≤ d
    · rw [if_pos hd] at hr; simp at hr
    · rw [if_neg hd] at hr
      cases hr1 : resolveAux (d + 1) h1 with
      | error e => rw [hr1] at hr; cases hr
      | ok p =>
        obtain ⟨k, ds1⟩ := p
        rw [hr1] at hr
        cases k <;> simp [StorageKind.isTypedBuffer] at hr
  | dictOf kh vh =>
    unfold resolveAux at hr
    by_cases hd : nestingBound ≤ d
    · rw [if_pos hd] at hr; simp at hr
    · rw [if_neg hd] at hr
      cases hr1 : resolveAux (d + 1) kh with
      | error e => rw [hr1] at hr; cases hr
      | ok p =>
        obtain ⟨kk, ds1⟩ := p
        rw [hr1] at hr
        cases hr2 : resolveAux (d + 1) vh with
        | error e => rw [hr2] at hr; cases hr
        | ok q =>
          obtain ⟨vk, ds2⟩ := q
          rw [hr2] at hr
          cases vk <;> simp [StorageKind.isTypedBuffer] at hr

theorem resolveAux_ok_iff (h : Hint) : ∀ d : Nat,
    exceptOk (resolveAux d h) = !hintBufferViolation d h := by
  induction h with
  | named s =>
    intro d
    cases hs : scalarKind? s <;>
      simp [resolveAux, hintBufferViolation, exceptOk, hs]
  | optional h1 ih =>
    intro d
    have ih1 := ih d
    cases hr : resolveAux d h1 with
    | error e =>
      rw [hr] at ih1
      simp only [exceptOk] at ih1
      simp [resolveAux, hr, exceptOk, hintBufferViolation, ← ih1]
    | ok p =>
      obtain ⟨k, ds⟩ := p
      rw [hr] at ih1
      simp only [exceptOk] at ih1
      simp [resolveAux, hr, exceptOk, hintBufferViolation, ← ih1]
  | tensor tg rk =>
    intro d
    cases hc : (decide (0 < rk) && knownTensorTag tg) <;>
      simp [resolveAux, hintBufferViolation, exceptOk, hc]
  | listOf h1 ih =>
    intro d
    by_cases hd : nestingBound ≤ d
    · simp [resolveAux, hintBufferViolation, exceptOk, hd]
    · have ih1 := ih (d + 1)
      cases hr : resolveAux (d + 1) h1 with
      | error e =>
        rw [hr] at ih1
        simp only [exceptOk] at ih1
        have hv : hintBufferViolation (d + 1) h1 = true := by
          cases hb : hintBufferViolation (d + 1) h1
          · rw [hb] at ih1; cases ih1
          · rfl
        simp [resolveAux, hintBufferViolation, exceptOk, hd, hr, hv]
      | ok p =>
        obtain ⟨k, ds⟩ := p
        rw [hr] at ih1
        simp only [exceptOk] at ih1
        have hv : hintBufferViolation (d + 1) h1 = false := by
          cases hb : hintBufferViolation (d + 1) h1
          · rfl
          · rw [hb] at ih1; cases ih1
        cases hk : k.isTypedBuffer with
        | true =>
          have hvt : isValidTensorHint h1 = true := by
            cases k <;> simp [StorageKind.isTypedBuffer] at hk <;>
              exact resolveAux_buffer_inv h1 (d + 1) _ _ _ hr
          simp [resolveAux, hintBufferViolation, exceptOk, hd, hr, hk, hvt]
        | false =>
          have hvt : isValidTensorHint h1 = false := by
            cases hvv : isValidTensorHint h1
            · rfl
            · obtain ⟨tg, rk, hrr⟩ := validTensor_resolves h1 (d + 1) hvv
              rw [hrr] at hr
              simp only [Except.ok.injEq, Prod.mk.injEq] at hr
              obtain ⟨hk2, -⟩ := hr
              rw [← hk2] at hk
              simp [StorageKind.isTypedBuffer] at hk
          simp [resolveAux, hintBufferViolation, exceptOk, hd, hr, hk, hvt, hv]
  | dictOf kh vh ihk ihv =>
    intro d
    by_cases hd : nestingBound ≤ d
    · simp [resolveAux, hintBufferViolation, exceptOk, hd]
    · have ihk1 := ihk (d + 1)
      have ihv1 := ihv (d + 1)
      cases hrk : resolveAux (d + 1) kh with
      | error e =>
        rw [hrk] at ihk1
        simp only [exceptOk] at ihk1
        have hvk : hintBufferViolation (d + 1) kh = true := by
          cases hb : hintBufferViolation (d + 1) kh
          · rw [hb] at ihk1; cases ihk1
          · rfl
        simp [resolveAux, hintBufferViolation, exceptOk, hd, hrk, hvk]
      | ok p =>
        obtain ⟨kk, ds1⟩ := p
        rw [hrk] at ihk1
        simp only [exceptOk] at ihk1
        have hvk : hintBufferViolation (d + 1) kh = false := by
          cases hb : hintBufferViolation (d + 1) kh
          · rfl
          · rw [hb] at ihk1; cases ihk1
        cases hrv : resolveAux (d + 1) vh with
        | error e =>
          rw [hrv] at ihv1
          simp only [exceptOk] at ihv1
          have hvv : hintBufferViolation (d + 1) vh = true := by
            cases hb : hintBufferViolation (d + 1) vh
            · rw [hb] at ihv1; cases ihv1
            · rfl
          simp [resolveAux, hintBufferViolation, exceptOk, hd, hrk, hrv, hvv]
        | ok q =>
          obtain ⟨vk, ds2⟩ := q
          rw [hrv] at ihv1
          simp only [exceptOk] at ihv1
          have hvv : hintBufferViolation (d + 1) vh = false := by
            cases hb : hintBufferViolation (d + 1) vh
            · rfl
            · rw [hb] at ihv1; cases ihv1
          cases hk : vk.isTypedBuffer with
          | true =>
            have hvt : isValidTensorHint vh = true := by
              cases vk <;> simp [StorageKind.isTypedBuffer] at hk <;>
                exact resolveAux_buffer_inv vh (d + 1) _ _ _ hrv
            simp [resolveAux, hintBufferViolation, exceptOk, hd, hrk, hrv, hk, hvt]
          | false =>
            have hvt : isValidTensorHint vh = false := by
              cases hvb : isValidTensorHint vh
              · rfl
              · obtain ⟨tg, rk, hrr⟩ := validTensor_resolves vh (d + 1) hvb
                rw [hrr] at hrv
                simp only [Except.ok.injEq, Prod.mk.injEq] at hrv
                obtain ⟨hk2, -⟩ := hrv
                rw [← hk2] at hk
                simp [StorageKind.isTypedBuffer] at hk
            simp [resolveAux, hintBufferViolation, exceptOk, hd, hrk, hrv, hk, hvt, hvk, hvv]

/-! Helper lemmas lifting the resolver dichotomy through the builder. -/

theorem bool_flip_true (b : Bool) (h : false = !b) : b = true := by
  cases b
  · cases h
  · rfl

theorem bool_flip_false (b : Bool) (h : true = !b) : b = false := by
  cases b
  · rfl
  · cases h

theorem buildParams_ok_iff (ps : List RawParam) :
    exceptOk (buildParams ps) = !(ps.any fun p => hintBufferViolation 0 p.hint) := by
  induction ps with
  | nil => rfl
  | cons p rest ih =>
    have hp := resolveAux_ok_iff p.hint 0
    cases hr : resolveAux 0 p.hint with
    | error e =>
      rw [hr] at hp
      simp only [exceptOk] at hp
      have hv := bool_flip_true _ hp
      simp [buildParams, hr, exceptOk, hv]
    | ok q =>
      obtain ⟨k, ds⟩ := q
      rw [hr] at hp
      simp only [exceptOk] at hp
      have hv := bool_flip_false _ hp
      cases hbr : buildParams rest with
      | error e =>
        rw [hbr] at ih
        simp only [exceptOk] at ih
        have ha := bool_flip_true _ ih
        simp [buildParams, hr, hbr, exceptOk, hv, ha]
      | ok q2 =>
        obtain ⟨syms, ds2⟩ := q2
        rw [hbr] at ih
        simp only [exceptOk] at ih
        have ha := bool_flip_false _ ih
        simp [buildParams, hr, hbr, exceptOk, hv, ha]

theorem buildFields_ok_iff (fs : List RawField) :
    exceptOk (buildFields fs) = !(fs.any fun f => hintBufferViolation 0 f.hint) := by
  induction fs with
  | nil => rfl
  | cons f rest ih =>
    have hp := resolveAux_ok_iff f.hint 0
    cases hr : resolveAux 0 f.hint with
    | error e =>
      rw [hr] at hp
      simp only [exceptOk] at hp
      have hv := bool_flip_true _ hp
      simp [buildFields, hr, exceptOk, hv]
    | ok q =>
      obtain ⟨k, ds⟩ := q
      rw [hr] at hp
      simp only [exceptOk] at hp
      have hv := bool_flip_false _ hp
      cases hbr : buildFields rest with
      | error e =>
        rw [hbr] at ih
        simp only [exceptOk] at ih
        have ha := bool_flip_true _ ih
        simp [buildFields, hr, hbr, exceptOk, hv, ha]
      | ok q2 =>
        obtain ⟨syms, ds2⟩ := q2
        rw [hbr] at ih
        simp only [exceptOk] at ih
        have ha := bool_flip_false _ ih
        simp [buildFields, hr, hbr, exceptOk, hv, ha]

theorem buildFunc_ok_iff (env : VerdictEnv) (o : Option String) (st : Symtab) (f : RawFunc) :
    exceptOk (buildFunc env o st f) = !funcHintsViolation f := by
  have hp := buildParams_ok_iff f.params
  have hr := resolveAux_ok_iff f.retHint 0
  cases hbp : buildParams f.params with
  | error e =>
    rw [hbp] at hp
    simp only [exceptOk] at hp
    have ha := bool_flip_true _ hp
    simp [buildFunc, hbp, exceptOk, funcHintsViolation, ha]
  | ok p =>
    obtain ⟨psyms, ds1⟩ := p
    rw [hbp] at hp
    simp only [exceptOk] at hp
    have ha := bool_flip_false _ hp
    cases hrr : resolveAux 0 f.retHint with
    | error e =>
      rw [hrr] at hr
      simp only [exceptOk] at hr
      have hb := bool_flip_true _ hr
      simp [buildFunc, hbp, hrr, exceptOk, funcHintsViolation, ha, hb]
    | ok q =>
      obtain ⟨rk, ds2⟩ := q
      rw [hrr] at hr
      simp only [exceptOk] at hr
      have hb := bool_flip_false _ hr
      simp [buildFunc, hbp, hrr, exceptOk, funcHintsViolation, ha, hb]

theorem buildFuncs_ok_iff (fs : List RawFunc) :
    ∀ (env : VerdictEnv) (o : Option String) (st : Symtab),
      exceptOk (buildFuncs env o st fs) = !(fs.any funcHintsViolation) := by
  induction fs with
  | nil => intro env o st; rfl
  | cons f rest ih =>
    intro env o st
    have hf := buildFunc_ok_iff env o st f
    cases hbf : buildFunc env o st f with
    | error e =>
      rw [hbf] at hf
      simp only [exceptOk] at hf
      have ha := bool_flip_true _ hf
      simp [buildFuncs, hbf, exceptOk, ha]
    | ok p =>
      obtain ⟨sig, ds⟩ := p
      rw [hbf] at hf
      simp only [exceptOk] at hf
      have ha := bool_flip_false _ hf
      have ih1 := ih (env ++ [(f.name, sig.verdict)]) o st
      cases hbr : buildFuncs (env ++ [(f.name, sig.verdict)]) o st rest with
      | error e =>
        rw [hbr] at ih1
        simp only [exceptOk] at ih1
        have hb := bool_flip_true _ ih1
        simp [buildFuncs, hbf, hbr, exceptOk, ha, hb]
      | ok q =>
        obtain ⟨sigs, ds2, env2⟩ := q
        rw [hbr] at ih1
        simp only [exceptOk] at ih1
        have hb := bool_flip_false _ ih1
        simp [buildFuncs, hbf, hbr, exceptOk, ha, hb]

theorem buildClass_ok_iff (env : VerdictEnv) (c : RawClass) :
    exceptOk (buildClass env c) = !classFatal c := by
  cases hc : hasConflict c.methods with
  | true => simp [buildClass, hc, exceptOk, classFatal]
  | false =>
    have hf := buildFields_ok_iff c.fields
    cases hbf : buildFields c.fields with
    | error e =>
      rw [hbf] at hf
      simp only [exceptOk] at hf
      have ha := bool_flip_true _ hf
      simp [buildClass, hc, hbf, exceptOk, classFatal, ha]
    | ok p =>
      obtain ⟨fsyms, ds1⟩ := p
      rw [hbf] at hf
      simp only [exceptOk] at hf
      have ha := bool_flip_false _ hf
      have hm := buildFuncs_ok_iff c.methods env (some c.name)
        (fsyms.map fun s => (s.name, s.kind))
      cases hbm : buildFuncs env (some c.name)
          (fsyms.map fun s => (s.name, s.kind)) c.methods with
      | error e =>
        rw [hbm] at hm
        simp only [exceptOk] at hm
        have hb := bool_flip_true _ hm
        simp [buildClass, hc, hbf, hbm, exceptOk, classFatal, ha, hb]
      | ok q =>
        obtain ⟨sigs, ds2, env2⟩ := q
        rw [hbm] at hm
        simp only [exceptOk] at hm
        have hb := bool_flip_false _ hm
        simp [buildClass, hc, hbf, hbm, exceptOk, classFatal, ha, hb]

theorem buildClasses_ok_iff (cs : List RawClass) :
    ∀ env : VerdictEnv, exceptOk (buildClasses env cs) = !(cs.any classFatal) := by
  induction cs with
  | nil => intro env; rfl
  | cons c rest ih =>
    intro env
    have hc := buildClass_ok_iff env c
    cases hbc : buildClass env c with
    | error e =>
      rw [hbc] at hc
      simp only [exceptOk] at hc
      have ha := bool_flip_true _ hc
      simp [buildClasses, hbc, exceptOk, ha]
    | ok p =>
      obtain ⟨cm, ds, env1⟩ := p
      rw [hbc] at hc
      simp only [exceptOk] at hc
      have ha := bool_flip_false _ hc
      have ih1 := ih env1
      cases hbr : buildClasses env1 rest with
      | error e =>
        rw [hbr] at ih1
        simp only [exceptOk] at ih1
        have hb := bool_flip_true _ ih1
        simp [buildClasses, hbc, hbr, exceptOk, ha, hb]
      | ok q =>
        obtain ⟨cms, ds2, env2⟩ := q
        rw [hbr] at ih1
        simp only [exceptOk] at ih1
        have hb := bool_flip_false _ ih1
        simp [buildClasses, hbc, hbr, exceptOk, ha, hb]

theorem buildModel_ok_iff (u : RawUnit) :
    exceptOk (buildModel u) = !unitHasFatal u := by
  cases hc : hasConflict u.freeFuncs with
  | true => simp [buildModel, hc, exceptOk, unitHasFatal]
  | false =>
    have hcs := buildClasses_ok_iff u.classes []
    cases hbc : buildClasses [] u.classes with
    | error e =>
      rw [hbc] at hcs
      simp only [exceptOk] at hcs
      have ha := bool_flip_true _ hcs
      simp [buildModel, hc, hbc, exceptOk, unitHasFatal, ha]
    | ok p =>
      obtain ⟨cms, ds1, env1⟩ := p
      rw [hbc] at hcs
      simp only [exceptOk] at hcs
      have ha := bool_flip_false _ hcs
      have hfs := buildFuncs_ok_iff u.freeFuncs env1 none []
      cases hbfs : buildFuncs env1 none [] u.freeFuncs with
      | error e =>
        rw [hbfs] at hfs
        simp only [exceptOk] at hfs
        have hb := bool_flip_true _ hfs
        simp [buildModel, hc, hbc, hbfs, exceptOk, unitHasFatal, ha, hb]
      | ok q =>
        obtain ⟨sigs, ds2, env2⟩ := q
        rw [hbfs] at hfs
        simp only [exceptOk] at hfs
        have hb := bool_flip_false _ hfs
        simp [buildModel, hc, hbc, hbfs, exceptOk, unitHasFatal, ha, hb]

/-- C5.  Atomicity of fatal errors: model construction of a unit aborts
with a fatal diagnostic exactly when the unit carries one of the two fatal
conditions (a visibility conflict between two same-named symbols of one
scope with incompatible explicit overrides, or a typed buffer as the
element of an owned container); on abort no model is produced and the
pipeline renders neither artifact, and otherwise both artifacts render
from the one complete model. -/
theorem buildModel_fatal_dichotomy (u : RawUnit) :
    ((∃ e, buildModel u = .error e) ↔ unitHasFatal u = true) ∧
    ((∃ m, buildModel u = .ok m) ↔ unitHasFatal u = false) ∧
    (∀ m, buildModel u = .ok m → emitUnit u = .ok (declEmit m, bodyEmit m)) ∧
    (∀ e, buildModel u = .error e → emitUnit u = .error e) := by
  have h := buildModel_ok_iff u
  refine ⟨⟨?_, ?_⟩, ⟨?_, ?_⟩, ?_, ?_⟩
  · rintro ⟨e, he⟩
    rw [he] at h
    simp only [exceptOk] at h
    exact bool_flip_true _ h
  · intro hf
    cases hb : buildModel u with
    | error e => exact ⟨e, rfl⟩
    | ok m => rw [hb, hf] at h; simp [exceptOk] at h
  · rintro ⟨m, hm⟩
    rw [hm] at h
    simp only [exceptOk] at h
    exact bool_flip_false _ h
  · intro hf
    cases hb : buildModel u with
    | error e => rw [hb, hf] at h; simp [exceptOk] at h
    | ok m => exact ⟨m, rfl⟩
  · intro m hm
    simp [emitUnit, hm]
  · intro e he
    simp [emitUnit, he]

/-- Witness for C5: the concrete unit with a visibility conflict aborts
construction, and the concrete event-log unit builds successfully. -/
theorem buildModel_fatal_dichotomy_demo :
    exceptOk (buildModel conflictUnit) = false ∧
    exceptOk (buildModel eventLogRawUnit) = true := by
  constructor
  · obtain ⟨e, he⟩ := (buildModel_fatal_dichotomy conflictUnit).1.mpr (by decide)
    rw [he]
    rfl
  · obtain ⟨m, hm⟩ := (buildModel_fatal_dichotomy eventLogRawUnit).2.1.mpr (by decide)
    rw [hm]
    rfl

/-! Helper lemmas tracing the visibility mode through model building. -/

theorem buildFunc_visibility (env : VerdictEnv) (o : Option String) (st : Symtab)
    (f : RawFunc) (sig : FunctionSignature) (ds : List Diagnostic)
    (hb : buildFunc env o st f = .ok (sig, ds)) :
    sig.visibility = visibilityOf f.decoration := by
  unfold buildFunc at hb
  cases h1 : buildParams f.params with
  | error e => rw [h1] at hb; cases hb
  | ok p =>
    obtain ⟨psyms, ds1⟩ := p
    rw [h1] at hb
    cases h2 : resolveAux 0 f.retHint with
    | error e => rw [h2] at hb; cases hb
    | ok q =>
      obtain ⟨rk, ds2⟩ := q
      rw [h2] at hb
      simp only [Except.ok.injEq, Prod.mk.injEq] at hb
      obtain ⟨hsig, -⟩ := hb
      rw [← hsig]

theorem buildFuncs_pointwise (fs : List RawFunc) :
    ∀ (env : VerdictEnv) (o : Option String) (st : Symtab)
      (sigs : List FunctionSignature) (ds : List Diagnostic) (env2 : VerdictEnv),
      buildFuncs env o st fs = .ok (sigs, ds, env2) →
      ∀ (i : Nat) (rf : RawFunc) (sig : FunctionSignature),
        fs[i]? = some rf → sigs[i]? = some sig →
        sig.visibility = visibilityOf rf.decoration := by
  induction fs with
  | nil =>
    intro env o st sigs ds env2 hb i rf sig h1 h2
    simp at h1
  | cons f rest ih =>
    intro env o st sigs ds env2 hb i rf sig h1 h2
    unfold buildFuncs at hb
    cases hbf : buildFunc env o st f with
    | error e => rw [hbf] at hb; cases hb
    | ok p =>
      obtain ⟨sig1, ds1⟩ := p
      rw [hbf] at hb
      dsimp only at hb
      cases hbr : buildFuncs (env ++ [(f.name, sig1.verdict)]) o st rest with
      | error e => rw [hbr] at hb; cases hb
      | ok q =>
        obtain ⟨sigs2, ds2, env3⟩ := q
        rw [hbr] at hb
        dsimp only at hb
        simp only [Except.ok.injEq, Prod.mk.injEq] at hb
        obtain ⟨hsigs, -, -⟩ := hb
        cases i with
        | zero =>
          rw [← hsigs] at h2
          simp only [List.getElem?_cons_zero, Option.some.injEq] at h1 h2
          rw [← h1, ← h2]
          exact buildFunc_visibility env o st f sig1 ds1 hbf
        | succ j =>
          rw [← hsigs] at h2
          simp only [List.getElem?_cons_succ] at h1 h2
          exact ih (env ++ [(f.name, sig1.verdict)]) o st sigs2 ds2 env3 hbr j rf sig h1 h2

theorem buildClass_methods_pointwise (env : VerdictEnv) (c : RawClass)
    (cm : ClassModel) (ds : List Diagnostic) (env2 : VerdictEnv)
    (hb : buildClass env c = .ok (cm, ds, env2)) :
    ∀ (i : Nat) (rf : RawFunc) (sig : FunctionSignature),
      c.methods[i]? = some rf → cm.methods[i]? = some sig →
      sig.visibility = visibilityOf rf.decoration := by
  intro i rf sig h1 h2
  unfold buildClass at hb
  by_cases hc : hasConflict c.methods = true
  · simp only [hc, if_true] at hb
    cases hb
  · simp only [hc, if_false, Bool.false_eq_true] at hb
    cases hbf : buildFields c.fields with
    | error e => rw [hbf] at hb; cases hb
    | ok p =>
      obtain ⟨fsyms, ds1⟩ := p
      rw [hbf] at hb
      dsimp only at hb
      cases hbm : buildFuncs env (some c.name)
          (fsyms.map fun s => (s.name, s.kind)) c.methods with
      | error e => rw [hbm] at hb; cases hb
      | ok q =>
        obtain ⟨sigs, ds2, env3⟩ := q
        rw [hbm] at hb
        dsimp only at hb
        simp only [Except.ok.injEq, Prod.mk.injEq] at hb
        obtain ⟨hcm, -, -⟩ := hb
        have hms : cm.methods = sigs := by rw [← hcm]
        rw [hms] at h2
        exact buildFuncs_pointwise c.methods env (some c.name)
          (fsyms.map fun s => (s.name, s.kind)) sigs ds2 env3 hbm i rf sig h1 h2

theorem buildClasses_pointwise (cs : List RawClass) :
    ∀ (env : VerdictEnv) (cms : List ClassModel) (ds : List Diagnostic) (env2 : VerdictEnv),
      buildClasses env cs = .ok (cms, ds, env2) →
      ∀ (ci : Nat) (rc : RawClass) (cm : ClassModel),
        cs[ci]? = some rc → cms[ci]? = some cm →
        ∀ (i : Nat) (rf : RawFunc) (sig : FunctionSignature),
          rc.methods[i]? = some rf → cm.methods[i]? = some sig →
          sig.visibility = visibilityOf rf.decoration := by
  induction cs with
  | nil =>
    intro env cms ds env2 hb ci rc cm h1 h2
    simp at h1
  | cons c rest ih =>
    intro env cms ds env2 hb ci rc cm h1 h2
    unfold buildClasses at hb
    cases hbc : buildClass env c with
    | error e => rw [hbc] at hb; cases hb
    | ok p =>
      obtain ⟨cm1, ds1, env1⟩ := p
      rw [hbc] at hb
      dsimp only at hb
      cases hbr : buildClasses env1 rest with
      | error e => rw [hbr] at hb; cases hb
      | ok q =>
        obtain ⟨cms2, ds2, env3⟩ := q
        rw [hbr] at hb
        dsimp only at hb
        simp only [Except.ok.injEq, Prod.mk.injEq] at hb
        obtain ⟨hcms, -, -⟩ := hb
        cases ci with
        | zero =>
          rw [← hcms] at h2
          simp only [List.getElem?_cons_zero, Option.some.injEq] at h1 h2
          rw [← h1, ← h2]
          exact buildClass_methods_pointwise env c cm1 ds1 env1 hbc
        | succ j =>
          rw [← hcms] at h2
          simp only [List.getElem?_cons_succ] at h1 h2
          exact ih env1 cms2 ds2 env3 hbr j rc cm h1 h2

/-- C7.  Visibility modes: an explicit decoration takes precedence over
the default — `@cdef` yields `internalOnly` (a cdef function), `@def_`
yields `hostOnly` (a plain def function), no decoration yields
`dualVisible` (a cpdef function) — and every function signature of a
built model (free function or method, matched by position) carries
exactly the mode derived once from its decoration during model
building. -/
theorem built_visibility_follows_decoration (u : RawUnit) (m : Model)
    (hm : buildModel u = .ok m) :
    (visibilityOf (some .cdefDecorator) = .internalOnly ∧
     visibilityOf (some .defDecorator) = .hostOnly ∧
     visibilityOf none = .dualVisible) ∧
    (∀ (i : Nat) (rf : RawFunc) (sig : FunctionSignature),
      u.freeFuncs[i]? = some rf → m.freeFuncs[i]? = some sig →
      sig.visibility = visibilityOf rf.decoration) ∧
    (∀ (ci : Nat) (rc : RawClass) (cm : ClassModel),
      u.classes[ci]? = some rc → m.classes[ci]? = some cm →
      ∀ (i : Nat) (rf : RawFunc) (sig : FunctionSignature),
        rc.methods[i]? = some rf → cm.methods[i]? = some sig →
        sig.visibility = visibilityOf rf.decoration) := by
  refine ⟨⟨rfl, rfl, rfl⟩, ?_, ?_⟩ <;>
  · unfold buildModel at hm
    by_cases hc : hasConflict u.freeFuncs = true
    · simp only [hc, if_true] at hm
      cases hm
    · simp only [hc, if_false, Bool.false_eq_true] at hm
      cases hbc : buildClasses [] u.classes with
      | error e => rw [hbc] at hm; cases hm
      | ok p =>
        obtain ⟨cms, ds1, env1⟩ := p
        rw [hbc] at hm
        dsimp only at hm
        cases hbf : buildFuncs env1 none [] u.freeFuncs with
        | error e => rw [hbf] at hm; cases hm
        | ok q =>
          obtain ⟨sigs, ds2, env2⟩ := q
          rw [hbf] at hm
          dsimp only at hm
          simp only [Except.ok.injEq] at hm
          first
          | (intro i rf sig h1 h2
             have hmf : m.freeFuncs = sigs := by rw [← hm]
             rw [hmf] at h2
             exact buildFuncs_pointwise u.freeFuncs env1 none [] sigs ds2 env2 hbf i rf sig h1 h2)
          | (intro ci rc cm h1 h2
             have hmc : m.classes = cms := by rw [← hm]
             rw [hmc] at h2
             exact buildClasses_pointwise u.classes [] cms ds1 env1 hbc ci rc cm h1 h2)

theorem modelOf_ok (u : RawUnit) (m : Model) (h : modelOf u = some m) :
    buildModel u = .ok m := by
  unfold modelOf at h
  cases hb : buildModel u with
  | ok m2 =>
    rw [hb] at h
    dsimp only at h
    rw [Option.some.inj h]
  | error e =>
    rw [hb] at h
    cases h

/-- Witness for C7: in the built model of the concrete three-function
unit, the `@cdef`-decorated function gets visibility `internalOnly`. -/
theorem built_visibility_follows_decoration_demo :
    (demoVisModel.freeFuncs[0]?).map FunctionSignature.visibility =
      some Visibility.internalOnly := by
  cases hs : demoVisModel.freeFuncs[0]? with
  | none => exact absurd hs (by decide)
  | some sig =>
    have h := (built_visibility_follows_decoration demoVisUnit demoVisModel
      (modelOf_ok demoVisUnit demoVisModel (by decide))).2.1 0 demoCdefFunc sig
      (by decide) hs
    simp [h, demoCdefFunc, visibilityOf]

/-- C8.  TypeResolver determinism and the canonical scalar table: the
resolved kind of a hint is one fixed function of the hint, independent of
the scope it appears in (and of any run state, the resolver being a pure
function); the `int` hint resolves to the signed 64-bit integer kind
emitted as `long`, the `float` hint to the 64-bit float kind emitted as
`double`, and the `bool` hint to the boolean kind emitted as `bint`. -/
theorem typeResolver_deterministic_canonical :
    (∀ (sc1 sc2 : Scope) (h : Hint), resolve sc1 h = resolve sc2 h) ∧
    (∀ sc : Scope,
      resolve sc (.named "int") = .ok (int64Kind, []) ∧
      resolve sc (.named "float") = .ok (float64Kind, []) ∧
      resolve sc (.named "bool") = .ok (boolKind, [])) ∧
    int64Kind = .primitiveScalar 64 true false ∧
    float64Kind = .primitiveScalar 64 true true ∧
    emitCType int64Kind = "long" ∧
    emitCType float64Kind = "double" ∧
    emitCType boolKind = "bint" := by
  exact ⟨fun _ _ _ => rfl, fun sc => ⟨rfl, rfl, rfl⟩, rfl, rfl, rfl, rfl, rfl⟩

/-- C9.  Total non-fatal fallback: a named hint outside the recognized
scalar table resolves to `opaqueHostObject` with one recorded low-severity
`unsupportedType` diagnostic, and model construction of a unit holding a
field with that hint still succeeds, carrying the diagnostic in the built
model. -/
theorem unrecognized_hint_degrades (s : String) (sc : Scope)
    (h : scalarKind? s = none) :
    resolve sc (.named s) = .ok (.opaqueHostObject, [⟨.unsupportedType, .low, s⟩]) ∧
    buildModel (unitWithFieldHint s) =
      .ok ⟨[⟨"Holder", [⟨"x", .named s, .opaqueHostObject, .classField⟩], [], [], [], false⟩],
        [], [⟨.unsupportedType, .low, s⟩]⟩ := by
  have hres : resolveAux 0 (.named s) = .ok (.opaqueHostObject, [⟨.unsupportedType, .low, s⟩]) := by
    unfold resolveAux
    rw [h]
  refine ⟨hres, ?_⟩
  simp [buildModel, hasConflict, buildClasses, buildClass, buildFields, buildFuncs,
    unitWithFieldHint, hres, StorageKind.isOwnedContainer, StorageKind.isOptionalPtr,
    List.filter]

/-- Witness for C9: the unrecognized hint name `CustomClass` degrades to
the opaque fallback with its low-severity diagnostic and the unit still
builds. -/
theorem unrecognized_hint_degrades_demo :
    resolve Scope.classField (.named "CustomClass") =
      .ok (.opaqueHostObject, [⟨.unsupportedType, .low, "CustomClass"⟩]) ∧
    buildModel (unitWithFieldHint "CustomClass") =
      .ok ⟨[⟨"Holder", [⟨"x", .named "CustomClass", .opaqueHostObject, .classField⟩],
        [], [], [], false⟩], [], [⟨.unsupportedType, .low, "CustomClass"⟩]⟩ :=
  unrecognized_hint_degrades "CustomClass" Scope.classField (by decide)

/-- C10.  Implementation artifacts open with the fixed five-directive
header — language_level=3, boundscheck=False, wraparound=False,
cdivision=True, nonecheck=False — for every built model, and the two
shipped implementation artifacts carry this exact header verbatim (so all
buffer indexing in the generated code is unchecked and integer division
follows C semantics, which is what those directives select). -/
theorem bodyEmit_directive_header (m : Model) :
    (bodyEmit m).take 5 = directiveHeader ∧
    "# cython: boundscheck=False" ∈ bodyEmit m ∧
    "# cython: cdivision=True" ∈ bodyEmit m ∧
    finalPyxHeader = directiveHeader ∧
    lastGeneratedPyxHeader = directiveHeader := by
  refine ⟨rfl, ?_, ?_, rfl, rfl⟩ <;>
    · unfold bodyEmit directiveHeader
      simp

/-- C2 evidence.  The shipped declaration and implementation artifacts
disagree on the `DataProcessor` class: the declaration lists three fields
while the implementation lists four (`event_log` is missing from the
declaration), the rendered type of `result_matrix` differs between the
two, and for the `Processor` class of final.pyx the visibility markers
differ (`public` on `status_codes` only in the declaration). -/
theorem dataProcessor_artifact_mismatch :
    dataProcessorDeclFields.map (fun f => f.2.2) ≠
      dataProcessorImplFields.map (fun f => f.2.2) ∧
    fieldTypeIn dataProcessorDeclFields "result_matrix" ≠
      fieldTypeIn dataProcessorImplFields "result_matrix" ∧
    processorDeclFields.map (fun f => f.1) ≠ processorImplFields.map (fun f => f.1) := by
  decide

/-- C3 evidence.  During construction of `Processor` in final.pyx the
owned-container field `event_log` is assigned twice — `__cinit__`
allocates a fresh map and `__init__` overwrites it — while an ordinary
field such as `config` is assigned exactly once. -/
theorem processor_eventLog_double_construction_assign :
    constructionAssignCount "event_log" = 2 ∧
    constructionAssignCount "config" = 1 := by
  decide

/-- C4 counterexample.  In the shipped `DataProcessor.__init__` the
null-sentinel assignment to the optional-pointer field `last_error_code`
is present but does not precede the other field initializations: it is the
last statement of the constructor body. -/
theorem dataProcessor_nullInit_not_first :
    nullSentinelFirst dataProcessorCtorBody = false ∧
    dataProcessorCtorBody.any isNullSet = true := by
  decide

/-- C4 amended.  Every optional-pointer field of a built class holds the
null sentinel in the allocation state of a fresh instance, before any
constructor statement executes: C-level fields are zero-initialized at
object allocation, so the invariant holds regardless of where the
explicit null assignment sits in the constructor body. -/
theorem optionalPointer_null_at_allocation (cm : ClassModel) (f : AnnotatedSymbol)
    (hf : f ∈ cm.fields) (hk : f.kind.isOptionalPtr = true) :
    (f.name, FieldValue.nullSentinel) ∈ allocationState cm := by
  have hz : zeroInitValue f.kind = .nullSentinel := by
    cases hfk : f.kind <;> rw [hfk] at hk <;> first
      | rfl
      | simp [StorageKind.isOptionalPtr] at hk
  unfold allocationState
  exact List.mem_map.mpr ⟨f, hf, by rw [hz]⟩

/-- Witness for the amended C4: the concrete optional-pointer field of the
concrete class model holds the null sentinel at allocation. -/
theorem optionalPointer_null_at_allocation_demo :
    ("last_error_code", FieldValue.nullSentinel) ∈ allocationState demoOptClass :=
  optionalPointer_null_at_allocation demoOptClass demoOptField (by decide) (by decide)

/-- C6 counterexample.  In the shipped generated implementation of
`DataProcessor`, the event-log field is the owned container emitted as
`unique_ptr[map[long, unique_ptr[vector[double]]]]` and the class has a
`__cinit__` construction hook, but no `__dealloc__` destructor hook
appears: release is implicit in the owning pointer's destruction. -/
theorem dataProcessor_no_release_hook :
    fieldTypeIn dataProcessorImplFields "event_log" =
      some "unique_ptr[map[long, unique_ptr[vector[double]]]]" ∧
    dataProcessorImplMethods.contains "__dealloc__" = false ∧
    dataProcessorImplMethods.contains "__cinit__" = true := by
  decide

/-- C6 amended.  The mapping-from-int-to-sequence-of-float hint resolves
to the nested owned-container kind (mapping keyed by the int64 scalar,
holding owned sequences of float64), which is emitted exactly as
`unique_ptr[map[long, unique_ptr[vector[double]]]]`; the built model of a
unit with such a field records exactly one allocation hook for it in the
construction hook and flags the class as having owned-container fields
(release being implicit in the owning pointer's destruction rather than an
explicit destructor hook). -/
theorem eventLog_resolution_and_alloc_hook :
    resolve .classField eventLogHint =
      .ok (.ownedMap int64Kind (.ownedSeq float64Kind), []) ∧
    emitCType (.ownedMap int64Kind (.ownedSeq float64Kind)) =
      "unique_ptr[map[long, unique_ptr[vector[double]]]]" ∧
    (modelOf eventLogRawUnit).map
      (fun m => m.classes.map fun c => (c.allocHooks, c.hasOwnedContainerFields)) =
      some [(["event_log"], true)] := by
  refine ⟨rfl, rfl, by decide⟩

end Pytocy
